import Mathlib

/-!
Shallow embedding of `src/xml-to-excel.py` (function `parse_excel_xml`),
a converter from SpreadsheetML XML to an xlsx workbook.

The XML tree is modelled post-parse: a workbook is a list of worksheets,
a worksheet has an optional `Name` attribute and an optional table,
a table is a list of rows, a row a list of cells, a cell an optional
`Index` attribute (kept as the raw attribute string, as in the XML) and
an optional `Data` element carrying an optional `Type` attribute and
optional text.

Python floats are modelled as exact rationals plus infinities and NaN
(`PyFloatVal`): IEEE-754 rounding of parsed decimal literals is abstracted
away; no claim below depends on a rounded value, only on the parse
succeeding or failing and on zero/non-zero. Python `str()` of a float is
likewise abstracted by `pyFloatRepr`; no claim depends on its exact text.
Python `int()`/`float()` accept Unicode digits; the model covers the ASCII
digits, which is all the claims exercise.
-/

attribute [local semireducible] Rat.mul Rat.inv Rat.add Rat.sub

/-- Decidable equality for `Except`, used to evaluate the model on
concrete inputs. -/
instance {ε α : Type} [DecidableEq ε] [DecidableEq α] :
    DecidableEq (Except ε α) := fun x y =>
  match x, y with
  | Except.error a, Except.error b =>
    if h : a = b then Decidable.isTrue (congrArg Except.error h)
    else Decidable.isFalse (fun hc => h (Except.error.inj hc))
  | Except.ok a, Except.ok b =>
    if h : a = b then Decidable.isTrue (congrArg Except.ok h)
    else Decidable.isFalse (fun hc => h (Except.ok.inj hc))
  | Except.error _, Except.ok _ => Decidable.isFalse (fun hc => Except.noConfusion hc)
  | Except.ok _, Except.error _ => Decidable.isFalse (fun hc => Except.noConfusion hc)

/-- Model of a Python float value (exact rationals, infinities, NaN). -/
inductive PyFloatVal where
  | finite (q : ℚ)
  | inf (neg : Bool)
  | nan
deriving DecidableEq

/-- A Python value held in a row cell: either a string or a float. -/
inductive CellValue where
  | str (s : String)
  | num (f : PyFloatVal)
deriving DecidableEq

/-- The `Data` child element of a `Cell`: `ss:Type` attribute and text. -/
structure DataElem where
  typeAttr : Option String
  text : Option String
deriving DecidableEq

/-- A `Cell` element: raw `ss:Index` attribute and optional `Data` child. -/
structure Cell where
  indexAttr : Option String
  data : Option DataElem
deriving DecidableEq

/-- A `Row` element is its list of `Cell` children. -/
abbrev XRow := List Cell

/-- A `Table` element is its list of `Row` children. -/
abbrev XTable := List XRow

/-- A `Worksheet` element: `ss:Name` attribute and optional `Table` child. -/
structure Worksheet where
  nameAttr : Option String
  table : Option XTable
deriving DecidableEq

/-! ### String helpers (Python semantics) -/

/-- Whitespace stripped by Python `int()` / `float()` (ASCII subset). -/
def isPySpace (c : Char) : Bool :=
  c = ' ' || c = '\t' || c = '\n' || c = '\x0b' || c = '\x0c' || c = '\r'

/-- Strip leading and trailing whitespace from a character list. -/
def stripWS (cs : List Char) : List Char :=
  ((cs.dropWhile isPySpace).reverse.dropWhile isPySpace).reverse

/-- `leadsWith pre cs`: `pre` is an initial segment of `cs`. -/
def leadsWith : List Char → List Char → Bool
  | [], _ => true
  | _ :: _, [] => false
  | a :: as, b :: bs => a == b && leadsWith as bs

/-- Python `needle in hay` on character lists. -/
def containsSub (needle : List Char) : List Char → Bool
  | [] => leadsWith needle []
  | c :: rest => leadsWith needle (c :: rest) || containsSub needle rest

/-- Python `needle in hay` on strings. -/
def strContains (hay needle : String) : Bool :=
  containsSub needle.toList hay.toList

/-- Python `hay.endswith(suffix)` (used only to state claims). -/
def strEndsWith (hay suf : String) : Bool :=
  leadsWith suf.toList.reverse hay.toList.reverse

/-- Python `s.split('T')[0]`: the part of `s` before the first `'T'`
(all of `s` when no `'T'` occurs). -/
def beforeFirstT (s : String) : String :=
  String.mk (s.toList.takeWhile (fun c => c ≠ 'T'))

/-! ### Python numeric literal parsing

`digitTail` / `digitPart` scan a run of ASCII digits in which a single
underscore may stand between two digits (PEP 515), returning the digits
with underscores removed plus the unconsumed remainder. -/

/-- Continue a digit run (one digit already consumed). -/
def digitTail : List Char → List Char × List Char
  | [] => ([], [])
  | c :: rest =>
    if c.isDigit then
      let (ds, r) := digitTail rest
      (c :: ds, r)
    else if c = '_' then
      match rest with
      | d :: rest2 =>
        if d.isDigit then
          let (ds, r) := digitTail rest2
          (d :: ds, r)
        else ([], c :: rest)
      | [] => ([], [c])
    else ([], c :: rest)

/-- Parse a non-empty digit run (with PEP 515 underscores). -/
def digitPart : List Char → Option (List Char × List Char)
  | [] => none
  | c :: rest =>
    if c.isDigit then
      let (ds, r) := digitTail rest
      some (c :: ds, r)
    else none

/-- Numeric value of a digit list. -/
def natOfDigits (ds : List Char) : Nat :=
  ds.foldl (fun a c => a * 10 + (c.toNat - 48)) 0

/-- Python `int(s)` on a character list: whitespace already stripped. -/
def pyIntCore (cs : List Char) : Option Int :=
  let (neg, cs1) :=
    match cs with
    | '+' :: r => (false, r)
    | '-' :: r => (true, r)
    | _ => (false, cs)
  match digitPart cs1 with
  | some (ds, []) =>
    some (if neg then -(natOfDigits ds : Int) else (natOfDigits ds : Int))
  | _ => none

/-- Python `int(s)`: `some n` when the parse succeeds, `none` when it
raises `ValueError`. -/
def pyInt (s : String) : Option Int :=
  pyIntCore (stripWS s.toList)

/-- Scale a rational by a signed power of ten. -/
def scalePow10 (q : ℚ) (e : Int) : ℚ :=
  if 0 ≤ e then q * (10 : ℚ) ^ e.toNat else q / (10 : ℚ) ^ (-e).toNat

/-- Parse the decimal-literal body of a Python float
(`digitpart [. [digitpart]] [exponent]` or `. digitpart [exponent]`). -/
def parseDecimal (neg : Bool) (cs : List Char) : Option PyFloatVal :=
  let ipRes :=
    match digitPart cs with
    | some (ip, rest) => some (ip, rest)
    | none => none
  let frac :
      Option (List Char × List Char × List Char) :=
    match ipRes with
    | some (ip, rest) =>
      match rest with
      | '.' :: r2 =>
        match digitPart r2 with
        | some (fp, r3) => some (ip, fp, r3)
        | none => some (ip, [], r2)
      | _ => some (ip, [], rest)
    | none =>
      match cs with
      | '.' :: r2 =>
        match digitPart r2 with
        | some (fp, r3) => some ([], fp, r3)
        | none => none
      | _ => none
  match frac with
  | none => none
  | some (ip, fp, rest) =>
    let expRes : Option Int :=
      match rest with
      | 'e' :: r3 | 'E' :: r3 =>
        let (eneg, r4) :=
          match r3 with
          | '+' :: r => (false, r)
          | '-' :: r => (true, r)
          | _ => (false, r3)
        match digitPart r4 with
        | some (ed, []) =>
          some (if eneg then -(natOfDigits ed : Int) else (natOfDigits ed : Int))
        | _ => none
      | [] => some 0
      | _ => none
    match expRes with
    | none => none
    | some e =>
      let mag := scalePow10 ((natOfDigits (ip ++ fp) : ℚ) / (10 : ℚ) ^ fp.length) e
      some (PyFloatVal.finite (if neg then -mag else mag))

/-- Python `float(s)`: `some v` when the parse succeeds, `none` when it
raises `ValueError`. -/
def pyFloat (s : String) : Option PyFloatVal :=
  let cs := stripWS s.toList
  let (neg, cs1) :=
    match cs with
    | '+' :: r => (false, r)
    | '-' :: r => (true, r)
    | _ => (false, cs)
  let low := cs1.map Char.toLower
  if low = ['i', 'n', 'f'] || low = ['i', 'n', 'f', 'i', 'n', 'i', 't', 'y'] then
    some (PyFloatVal.inf neg)
  else if low = ['n', 'a', 'n'] then
    some PyFloatVal.nan
  else
    parseDecimal neg cs1

/-! ### The Row Normalizer (lines 37–76 of `parse_excel_xml`) -/

/-- Python truthiness of a cell value: a non-empty string, or a non-zero
float (infinities and NaN are truthy). -/
def truthy : CellValue → Bool
  | CellValue.str s => s ≠ ""
  | CellValue.num (PyFloatVal.finite q) => q ≠ 0
  | CellValue.num _ => true

/-- Python `str()` of a float (abstraction of CPython float repr; no
claim depends on the exact text). -/
def pyFloatRepr : PyFloatVal → String
  | PyFloatVal.finite q =>
    if q.den = 1 then toString q.num ++ ".0" else toString q
  | PyFloatVal.inf b => if b then "-inf" else "inf"
  | PyFloatVal.nan => "nan"

/-- Python `str()` of a cell value. -/
def pyStr : CellValue → String
  | CellValue.str s => s
  | CellValue.num f => pyFloatRepr f

/-- Line 54: `value = data.text if data is not None and data.text else ""`. -/
def cellText (c : Cell) : String :=
  match c.data with
  | some d =>
    match d.text with
    | some t => if t = "" then "" else t
    | none => ""
  | none => ""

/-- Line 57: `data_type = data.get(Type, 'String') if data is not None
else 'String'`. -/
def cellType (c : Cell) : String :=
  match c.data with
  | some d => d.typeAttr.getD "String"
  | none => "String"

/-- Lines 54–68: the rendered (type-coerced) value of a cell.
`Number`: `float(value) if value else 0.0`, `ValueError` → `0.0`.
`DateTime`: when the text is non-empty and contains `'T00:00:00'`,
`value.split('T')[0]`. Anything else passes through as a string. -/
def renderValue (c : Cell) : CellValue :=
  let value := cellText c
  let dtype := cellType c
  if dtype = "Number" then
    CellValue.num
      (if value = "" then PyFloatVal.finite 0
       else (pyFloat value).getD (PyFloatVal.finite 0))
  else if dtype = "DateTime" then
    if value ≠ "" && strContains value "T00:00:00" then
      CellValue.str (beforeFirstT value)
    else
      CellValue.str value
  else
    CellValue.str value

/-- Lines 48–50: the gap-filling `while` loop, by its iteration count
`n = (index_val - current_index).toNat`: append `n` empty strings and
advance `current_index` by `n`. -/
def gapFillN (row_data : List CellValue) (current_index : Nat) :
    Nat → List CellValue × Nat
  | 0 => (row_data, current_index)
  | n + 1 => gapFillN (row_data ++ [CellValue.str ""]) (current_index + 1) n

/-- Lines 42–71: processing of one cell against the running row state
`(row_data, current_index)`. A present, non-empty `Index` attribute is
parsed with `int` (a failed parse raises `ValueError`, modelled as
`Except.error`), gaps are filled, then the rendered value is appended
and the running index advances by one. -/
def stepCell (acc : List CellValue × Nat) (c : Cell) :
    Except String (List CellValue × Nat) :=
  let row_data := acc.1
  let current_index := acc.2
  match c.indexAttr with
  | some s =>
    if s = "" then
      Except.ok (row_data ++ [renderValue c], current_index + 1)
    else
      match pyInt s with
      | none => Except.error ("invalid literal for int" ++ ": " ++ s)
      | some n =>
        let g := gapFillN row_data current_index
          ((n - 1 : Int) - (current_index : Int)).toNat
        Except.ok (g.1 ++ [renderValue c], g.2 + 1)
  | none => Except.ok (row_data ++ [renderValue c], current_index + 1)

/-- Lines 38–71: the cell loop of one row. -/
def buildRowAux (cells : List Cell) (acc : List CellValue × Nat) :
    Except String (List CellValue × Nat) :=
  match cells with
  | [] => Except.ok acc
  | c :: rest =>
    match stepCell acc c with
    | Except.error e => Except.error e
    | Except.ok acc2 => buildRowAux rest acc2

/-- Lines 38–71: build one row's values (`row_data` starts empty,
`current_index` starts at 0). -/
def buildRow (r : XRow) : Except String (List CellValue) :=
  match buildRowAux r ([], 0) with
  | Except.error e => Except.error e
  | Except.ok acc => Except.ok acc.1

/-- Lines 73–76: keep a built row only when some value is truthy, and
fold the maximum width over kept rows. -/
def tableStep (acc : List (List CellValue) × Nat) (r : XRow) :
    Except String (List (List CellValue) × Nat) :=
  match buildRow r with
  | Except.error e => Except.error e
  | Except.ok row_data =>
    if row_data.any truthy then
      Except.ok (acc.1 ++ [row_data], max acc.2 row_data.length)
    else
      Except.ok acc

/-- Lines 33–76: the row loop of one table. -/
def processTableAux (rows : List XRow) (acc : List (List CellValue) × Nat) :
    Except String (List (List CellValue) × Nat) :=
  match rows with
  | [] => Except.ok acc
  | r :: rest =>
    match tableStep acc r with
    | Except.error e => Except.error e
    | Except.ok acc2 => processTableAux rest acc2

/-- Lines 33–76: `rows_data` and `max_cols` for one table. -/
def processTable (t : XTable) : Except String (List (List CellValue) × Nat) :=
  processTableAux t ([], 0)

/-- Lines 79–81: right-pad a row with empty strings to `max_cols`. -/
def padRow (max_cols : Nat) (r : List CellValue) : List CellValue :=
  if r.length < max_cols then
    r ++ List.replicate (max_cols - r.length) (CellValue.str "")
  else r

/-! ### The Table Builder (lines 84–92) -/

/-- Line 88: `str(h) if h else f"Column..."` over the enumerated header
row. -/
def mkHeaders (row : List CellValue) : List String :=
  row.enum.map
    (fun p => if truthy p.2 then pyStr p.2 else "Column" ++ toString (p.1 + 1))

/-- An output sheet: header strings plus data rows. -/
structure Sheet where
  headers : List String
  data : List (List CellValue)
deriving DecidableEq

/-- Lines 78–92: normalize a table and build its sheet; `none` when the
`rows_data and len(rows_data) > 1` guard fails. -/
def buildSheet (t : XTable) : Except String (Option Sheet) :=
  match processTable t with
  | Except.error e => Except.error e
  | Except.ok (rows_data, max_cols) =>
    match rows_data.map (padRow max_cols) with
    | r0 :: r1 :: rest =>
      Except.ok (some { headers := mkHeaders r0, data := r1 :: rest })
    | _ => Except.ok none

/-- Line 92: `worksheets[sheet_name] = df` on an insertion-ordered dict:
replace in place when the key exists, else append. -/
def upsert (m : List (String × Sheet)) (k : String) (v : Sheet) :
    List (String × Sheet) :=
  if m.any (fun p => p.1 = k) then
    m.map (fun p => if p.1 = k then (k, v) else p)
  else
    m ++ [(k, v)]

/-- Lines 25–92: one worksheet of the worksheet loop. -/
def convertStep (acc : List (String × Sheet)) (ws : Worksheet) :
    Except String (List (String × Sheet)) :=
  match ws.table with
  | none => Except.ok acc
  | some t =>
    match buildSheet t with
    | Except.error e => Except.error e
    | Except.ok none => Except.ok acc
    | Except.ok (some sh) => Except.ok (upsert acc (ws.nameAttr.getD "Sheet") sh)

/-- Lines 25–92: the worksheet loop. -/
def convertAux (wss : List Worksheet) (acc : List (String × Sheet)) :
    Except String (List (String × Sheet)) :=
  match wss with
  | [] => Except.ok acc
  | ws :: rest =>
    match convertStep acc ws with
    | Except.error e => Except.error e
    | Except.ok acc2 => convertAux rest acc2

/-- Lines 25–92: the `worksheets` mapping built from the document. -/
def convert (wb : List Worksheet) : Except String (List (String × Sheet)) :=
  convertAux wb []

/-- What one run reports: return value, printed message, written sheets. -/
structure RunOutput where
  result : Bool
  message : String
  sheets : List (String × Sheet)
deriving DecidableEq

/-- Lines 10–108: `parse_excel_xml` end to end. Any raised exception is
caught at the top (`Error converting...`, `False`); an empty mapping
prints `No data found...` and returns `False`; otherwise the sheets are
written and the run succeeds. -/
def parse_excel_xml (wb : List Worksheet) (xml_file xlsx_file : String) :
    RunOutput :=
  match convert wb with
  | Except.error e =>
    { result := false
      message := "Error converting XML to Excel: " ++ e
      sheets := [] }
  | Except.ok worksheets =>
    if worksheets.isEmpty then
      { result := false
        message := "No data found in " ++ xml_file
        sheets := [] }
    else
      { result := true
        message := "Successfully converted " ++ xml_file ++ " to " ++ xlsx_file
        sheets := worksheets }

/-! ### Derived definitions used to state the claims -/

/-- Build every row of a table, before the empty-row filter (the
per-row part of lines 37–71, sequenced over the rows). -/
def buildRows : List XRow → Except String (List (List CellValue))
  | [] => Except.ok []
  | r :: rest =>
    match buildRow r with
    | Except.error e => Except.error e
    | Except.ok v =>
      match buildRows rest with
      | Except.error e => Except.error e
      | Except.ok vs => Except.ok (v :: vs)

/-- A cell whose `Index` attribute, when present and non-empty, parses
as an integer (so line 47's `int(cell_index)` cannot raise). -/
def goodCell (c : Cell) : Bool :=
  match c.indexAttr with
  | none => true
  | some s => if s = "" then true else (pyInt s).isSome

/-- Every cell of the table has a parseable (or absent) `Index`. -/
def validIndexes (t : XTable) : Bool :=
  t.all (fun r => r.all goodCell)

/-! ### Concrete inputs used by witnesses and counterexamples -/

/-- A `Number` cell with non-numeric text. -/
def wCellNum : Cell := ⟨none, some ⟨some "Number", some "abc"⟩⟩

/-- A `DateTime` cell at literal midnight. -/
def wCellDT1 : Cell := ⟨none, some ⟨some "DateTime", some "2024-01-05T00:00:00"⟩⟩

/-- A `DateTime` cell at a non-midnight time. -/
def wCellDT2 : Cell := ⟨none, some ⟨some "DateTime", some "2024-01-05T08:30:00"⟩⟩

/-- A `DateTime` cell whose `T00:00:00` is followed by a zone offset. -/
def wCellDT3 : Cell := ⟨none, some ⟨some "DateTime", some "2020-02-02T00:00:00+05:00"⟩⟩

/-- A `DateTime` cell with fractional seconds after the literal
midnight: it contains `T00:00:00` but does not end with it. -/
def wCellDT4 : Cell := ⟨none, some ⟨some "DateTime", some "2024-01-05T00:00:00.500"⟩⟩

/-- A plain string cell. -/
def wCellStr (s : String) : Cell := ⟨none, some ⟨none, some s⟩⟩

/-- A cell with an unparseable `Index` attribute. -/
def wCellBadIdx : Cell := ⟨some "abc", none⟩

/-- A cell with `Index="4"`. -/
def wCellIdx4 (s : String) : Cell := ⟨some "4", some ⟨none, some s⟩⟩

/-- A two-data-row table whose header row starts blank: first row
`["", "City"]`, second `["a", "b"]`, third all-blank. -/
def wTable : XTable :=
  [[wCellStr "", wCellStr "City"],
   [wCellStr "a", wCellStr "b"],
   [wCellStr "", ⟨none, some ⟨none, none⟩⟩]]

/-- A workbook holding `wTable` under the name `"Data"`. -/
def wWorkbook : List Worksheet := [⟨some "Data", some wTable⟩]

/-- A workbook whose only worksheet has a single non-empty row. -/
def wWorkbookShort : List Worksheet :=
  [⟨some "Solo", some [[wCellStr "only"]]⟩]

/-! ### Helper lemmas -/

/-- The gap-filling loop appends exactly its iteration count of empty
strings and advances the index by the same amount. -/
theorem gapFillN_eq (n : Nat) :
    ∀ (row : List CellValue) (cur : Nat),
      gapFillN row cur n = (row ++ List.replicate n (CellValue.str ""), cur + n) := by
  induction n with
  | zero => intro row cur; simp [gapFillN]
  | succ k ih =>
    intro row cur
    rw [gapFillN, ih]
    simp [List.replicate_succ, List.append_assoc]
    omega

/-- `stepCell` on a cell with a present, non-empty, parseable `Index`. -/
theorem stepCell_some (row : List CellValue) (k : Nat) (c : Cell) (s : String)
    (n : Int) (h1 : c.indexAttr = some s) (h2 : s ≠ "") (h3 : pyInt s = some n) :
    stepCell (row, k) c =
      Except.ok
        (row ++ List.replicate ((n - 1 - (k : Int)).toNat) (CellValue.str "")
          ++ [renderValue c],
         k + (n - 1 - (k : Int)).toNat + 1) := by
  simp [stepCell, h1, h2, h3, gapFillN_eq, List.append_assoc]

/-- `stepCell` on a cell without an `Index` attribute. -/
theorem stepCell_none (row : List CellValue) (k : Nat) (c : Cell)
    (h : c.indexAttr = none) :
    stepCell (row, k) c = Except.ok (row ++ [renderValue c], k + 1) := by
  simp [stepCell, h]

/-- `stepCell` on a cell whose `Index` attribute is the empty string
(falsy in Python, so no gap fill and no parse). -/
theorem stepCell_empty (row : List CellValue) (k : Nat) (c : Cell)
    (h : c.indexAttr = some "") :
    stepCell (row, k) c = Except.ok (row ++ [renderValue c], k + 1) := by
  simp [stepCell, h]

/-- A string containing `"T00:00:00"` is not empty. -/
theorem strContains_T_ne_empty (s : String)
    (h : strContains s "T00:00:00" = true) : s ≠ "" := by
  intro he
  subst he
  exact absurd h (by decide)

/-- `renderValue` on a `Number` cell, unfolded. -/
theorem renderValue_number (c : Cell) (h : cellType c = "Number") :
    renderValue c =
      CellValue.num
        (if cellText c = "" then PyFloatVal.finite 0
         else (pyFloat (cellText c)).getD (PyFloatVal.finite 0)) := by
  simp [renderValue, h]

/-- `renderValue` on a `DateTime` cell, unfolded. -/
theorem renderValue_dateTime (c : Cell) (h : cellType c = "DateTime") :
    renderValue c =
      CellValue.str
        (if cellText c ≠ "" && strContains (cellText c) "T00:00:00" then
          beforeFirstT (cellText c)
         else cellText c) := by
  simp [renderValue, h]
  split <;> rfl

/-- Width bound: a successful table fold bounds every kept row's length
by the final `max_cols`, which only grows. -/
theorem processTableAux_bound :
    ∀ (rows : List XRow) (acc : List (List CellValue)) (m0 : Nat)
      (rs : List (List CellValue)) (m : Nat),
      processTableAux rows (acc, m0) = Except.ok (rs, m) →
      (∀ r ∈ acc, r.length ≤ m0) →
      (∀ r ∈ rs, r.length ≤ m) ∧ m0 ≤ m := by
  intro rows
  induction rows with
  | nil =>
    intro acc m0 rs m h hacc
    simp [processTableAux] at h
    obtain ⟨h1, h2⟩ := h
    subst h1; subst h2
    exact ⟨hacc, Nat.le_refl m0⟩
  | cons r rest ih =>
    intro acc m0 rs m h hacc
    rw [processTableAux] at h
    cases hr : buildRow r with
    | error e => simp [tableStep, hr] at h
    | ok v =>
      by_cases hv : v.any truthy
      · have hstep : tableStep (acc, m0) r =
            Except.ok (acc ++ [v], max m0 v.length) := by
          simp [tableStep, hr, hv]
        rw [hstep] at h
        have := ih (acc ++ [v]) (max m0 v.length) rs m h ?_
        · exact ⟨this.1, Nat.le_trans (Nat.le_max_left _ _) this.2⟩
        · intro x hx
          rcases List.mem_append.mp hx with hx | hx
          · exact Nat.le_trans (hacc x hx) (Nat.le_max_left _ _)
          · rcases List.mem_singleton.mp hx with rfl
            exact Nat.le_max_right _ _
      · have hstep : tableStep (acc, m0) r = Except.ok (acc, m0) := by
          simp [tableStep, hr, hv]
        rw [hstep] at h
        exact ih acc m0 rs m h hacc

/-- Closed form of the row loop: when every row builds, the fold keeps
exactly the truthy-containing rows (appended in order) and folds the
maximum length over the kept rows only. -/
theorem processTableAux_closed :
    ∀ (rows : List XRow) (bs : List (List CellValue))
      (acc : List (List CellValue)) (m0 : Nat),
      buildRows rows = Except.ok bs →
      processTableAux rows (acc, m0) =
        Except.ok
          (acc ++ bs.filter (fun r => r.any truthy),
           (bs.filter (fun r => r.any truthy)).foldl
             (fun a r => max a r.length) m0) := by
  intro rows
  induction rows with
  | nil =>
    intro bs acc m0 h
    simp [buildRows] at h
    subst h
    simp [processTableAux]
  | cons r rest ih =>
    intro bs acc m0 h
    rw [buildRows] at h
    cases hr : buildRow r with
    | error e => rw [hr] at h; exact absurd h (by simp)
    | ok v =>
      rw [hr] at h
      cases hrest : buildRows rest with
      | error e => rw [hrest] at h; exact absurd h (by simp)
      | ok vs =>
        rw [hrest] at h
        obtain rfl : v :: vs = bs := by
          cases h; rfl
        rw [processTableAux]
        by_cases hv : v.any truthy
        · have hstep : tableStep (acc, m0) r =
              Except.ok (acc ++ [v], max m0 v.length) := by
            simp [tableStep, hr, hv]
          rw [hstep]
          show processTableAux rest (acc ++ [v], max m0 v.length) = _
          rw [ih vs (acc ++ [v]) (max m0 v.length) hrest]
          simp [hv, List.append_assoc]
        · have hstep : tableStep (acc, m0) r = Except.ok (acc, m0) := by
            simp [tableStep, hr, hv]
          rw [hstep]
          show processTableAux rest (acc, m0) = _
          rw [ih vs acc m0 hrest]
          simp [hv]

/-- Padding yields length `max r.length max_cols`. -/
theorem padRow_length (max_cols : Nat) (r : List CellValue) :
    (padRow max_cols r).length = max r.length max_cols := by
  unfold padRow
  split <;> simp <;> omega

/-- Header generation preserves length. -/
theorem mkHeaders_length (row : List CellValue) :
    (mkHeaders row).length = row.length := by
  simp [mkHeaders]

/-- A successful sheet build exposes the padded first row as the header
source and the padded remaining rows as the data. -/
theorem buildSheet_shape (t : XTable) (rows : List (List CellValue))
    (m : Nat) (sh : Sheet) (hp : processTable t = Except.ok (rows, m))
    (hb : buildSheet t = Except.ok (some sh)) :
    ∃ r0 r1 rest, rows = r0 :: r1 :: rest ∧
      sh = { headers := mkHeaders (padRow m r0)
             data := (r1 :: rest).map (padRow m) } := by
  unfold buildSheet at hb
  rw [hp] at hb
  match rows with
  | [] => exact absurd hb (by simp)
  | [r0] => exact absurd hb (by simp)
  | r0 :: r1 :: rest =>
    refine ⟨r0, r1, rest, rfl, ?_⟩
    simp at hb
    exact hb.symm

/-- A successful sheet build comes from a successful table fold. -/
theorem buildSheet_processTable (t : XTable) (sh : Sheet)
    (hb : buildSheet t = Except.ok (some sh)) :
    ∃ rows m, processTable t = Except.ok (rows, m) := by
  unfold buildSheet at hb
  cases hp : processTable t with
  | error e => rw [hp] at hb; exact absurd hb (by simp)
  | ok p =>
    obtain ⟨a, b⟩ := p
    exact ⟨a, b, rfl⟩

/-- Every sheet built from a table is rectangular: data rows and header
all have width `max_cols`. -/
theorem buildSheet_rect (t : XTable) (rows : List (List CellValue))
    (m : Nat) (sh : Sheet) (hp : processTable t = Except.ok (rows, m))
    (hb : buildSheet t = Except.ok (some sh)) :
    sh.headers.length = m ∧ ∀ r ∈ sh.data, r.length = m := by
  obtain ⟨r0, r1, rest, hrows, hsh⟩ := buildSheet_shape t rows m sh hp hb
  have hbound := (processTableAux_bound t [] 0 rows m hp (by simp)).1
  subst hrows
  subst hsh
  constructor
  · rw [mkHeaders_length, padRow_length]
    have := hbound r0 (by simp)
    omega
  · intro r hr
    simp only [List.mem_map] at hr
    obtain ⟨ri, hri, rfl⟩ := hr
    rw [padRow_length]
    have : ri.length ≤ m := hbound ri (List.mem_cons_of_mem r0 hri)
    omega
/-- Membership after a dict upsert: an entry is an old entry or the new
binding. -/
theorem upsert_mem (m : List (String × Sheet)) (k : String) (v : Sheet)
    (p : String × Sheet) (hp : p ∈ upsert m k v) :
    p ∈ m ∨ p = (k, v) := by
  unfold upsert at hp
  split at hp
  · simp only [List.mem_map] at hp
    obtain ⟨q, hq, hqp⟩ := hp
    by_cases hk : q.1 = k
    · right; rw [← hqp]; simp [hk]
    · left; rw [← hqp]; simpa [hk] using hq
  · rcases List.mem_append.mp hp with h | h
    · exact Or.inl h
    · exact Or.inr (List.mem_singleton.mp h)

/-- Worksheet-loop invariant: any property guaranteed by `buildSheet`
holds of every sheet in the final mapping. -/
theorem convertAux_inv (P : Sheet → Prop)
    (hP : ∀ t sh, buildSheet t = Except.ok (some sh) → P sh) :
    ∀ (wss : List Worksheet) (acc res : List (String × Sheet)),
      (∀ p ∈ acc, P p.2) → convertAux wss acc = Except.ok res →
      ∀ p ∈ res, P p.2 := by
  intro wss
  induction wss with
  | nil =>
    intro acc res hacc h
    simp [convertAux] at h
    subst h
    exact hacc
  | cons ws rest ih =>
    intro acc res hacc h
    rw [convertAux] at h
    cases hstep : convertStep acc ws with
    | error e => rw [hstep] at h; exact absurd h (by simp)
    | ok acc2 =>
      rw [hstep] at h
      refine ih acc2 res ?_ h
      obtain ⟨nm, tbl⟩ := ws
      cases tbl with
      | none =>
        simp [convertStep] at hstep
        subst hstep
        exact hacc
      | some t =>
        simp only [convertStep] at hstep
        cases hbs : buildSheet t with
        | error e => rw [hbs] at hstep; exact absurd hstep (by simp)
        | ok so =>
          rw [hbs] at hstep
          cases so with
          | none =>
            simp at hstep
            subst hstep
            exact hacc
          | some sh =>
            simp at hstep
            subst hstep
            intro p hp
            rcases upsert_mem acc ((nm : Option String).getD "Sheet") sh p hp with h | h
            · exact hacc p h
            · rw [h]; exact hP t sh hbs

/-- A cell with a parseable (or absent/empty) `Index` never makes
`stepCell` fail. -/
theorem stepCell_ok (acc : List CellValue × Nat) (c : Cell)
    (h : goodCell c = true) : ∃ acc2, stepCell acc c = Except.ok acc2 := by
  obtain ⟨row, k⟩ := acc
  cases hc : c.indexAttr with
  | none => exact ⟨_, stepCell_none row k c hc⟩
  | some s =>
    simp only [goodCell, hc] at h
    by_cases hs : s = ""
    · subst hs
      exact ⟨_, stepCell_empty row k c hc⟩
    · rw [if_neg hs] at h
      cases hp : pyInt s with
      | none => rw [hp] at h; exact absurd h (by simp)
      | some n => exact ⟨_, stepCell_some row k c s n hc hs hp⟩

/-- A row of good cells always builds. -/
theorem buildRowAux_ok :
    ∀ (cells : List Cell) (acc : List CellValue × Nat),
      (∀ c ∈ cells, goodCell c = true) →
      ∃ res, buildRowAux cells acc = Except.ok res := by
  intro cells
  induction cells with
  | nil => intro acc _; exact ⟨acc, rfl⟩
  | cons c rest ih =>
    intro acc hgood
    obtain ⟨acc2, hacc2⟩ := stepCell_ok acc c (hgood c (by simp))
    rw [buildRowAux, hacc2]
    exact ih acc2 (fun x hx => hgood x (List.mem_cons_of_mem c hx))

/-- A table whose `Index` attributes all parse folds without error: the
`int()` call on a malformed `Index` is the only error path in the
normalizer. -/
theorem processTableAux_ok :
    ∀ (rows : List XRow) (acc : List (List CellValue) × Nat),
      (∀ r ∈ rows, ∀ c ∈ r, goodCell c = true) →
      ∃ res, processTableAux rows acc = Except.ok res := by
  intro rows
  induction rows with
  | nil => intro acc _; exact ⟨acc, rfl⟩
  | cons r rest ih =>
    intro acc hgood
    obtain ⟨v, hv⟩ := buildRowAux_ok r ([], 0) (hgood r (by simp))
    have hbr : buildRow r = Except.ok v.1 := by
      unfold buildRow
      rw [hv]
    rw [processTableAux]
    by_cases ht : v.1.any truthy
    · have : tableStep acc r = Except.ok (acc.1 ++ [v.1], max acc.2 v.1.length) := by
        simp [tableStep, hbr, ht]
      rw [this]
      exact ih _ (fun x hx c hc => hgood x (List.mem_cons_of_mem r hx) c hc)
    · have : tableStep acc r = Except.ok acc := by
        simp [tableStep, hbr, ht]
      rw [this]
      exact ih _ (fun x hx c hc => hgood x (List.mem_cons_of_mem r hx) c hc)

/-! ### Claims -/

/-- C1: every sheet in the output has data rows whose column counts all
equal the header length; and at sheet level the common width is the
maximum kept-row length `max_cols`, shared by the padded header row and
every padded data row. -/
theorem c1_rectangular_grid :
    (∀ (wb : List Worksheet) (sheets : List (String × Sheet))
        (p : String × Sheet) (r : List CellValue),
      convert wb = Except.ok sheets → p ∈ sheets → r ∈ p.2.data →
      r.length = p.2.headers.length) ∧
    (∀ (t : XTable) (rows : List (List CellValue)) (m : Nat) (sh : Sheet),
      processTable t = Except.ok (rows, m) →
      buildSheet t = Except.ok (some sh) →
      sh.headers.length = m ∧ ∀ r ∈ sh.data, r.length = m) := by
  constructor
  · intro wb sheets p r hconv hp hr
    have hP : ∀ p ∈ sheets,
        (∀ r ∈ (p : String × Sheet).2.data, r.length = p.2.headers.length) := by
      refine convertAux_inv
        (fun sh => ∀ r ∈ sh.data, r.length = sh.headers.length)
        ?_ wb [] sheets (by simp) hconv
      intro t sh hb
      obtain ⟨rows, m, hpt⟩ := buildSheet_processTable t sh hb
      obtain ⟨hh, hd⟩ := buildSheet_rect t rows m sh hpt hb
      intro r hr
      rw [hd r hr, hh]
    exact hP p hp r hr
  · intro t rows m sh hpt hb
    exact buildSheet_rect t rows m sh hpt hb

/-- C1 witness: the rectangular invariant evaluated on `wWorkbook`. -/
theorem c1_witness :
    convert wWorkbook =
      Except.ok [("Data",
        { headers := ["Column1", "City"]
          data := [[CellValue.str "a", CellValue.str "b"]] })] ∧
    [CellValue.str "a", CellValue.str "b"].length =
      (["Column1", "City"] : List String).length :=
  ⟨by decide,
    c1_rectangular_grid.1 wWorkbook
      [("Data", { headers := ["Column1", "City"]
                  data := [[CellValue.str "a", CellValue.str "b"]] })]
      ("Data", { headers := ["Column1", "City"]
                 data := [[CellValue.str "a", CellValue.str "b"]] })
      [CellValue.str "a", CellValue.str "b"]
      (by decide) (by decide) (by decide)⟩

/-- C2: a cell with explicit 1-based index `P` hitting a row whose
running 0-based count `k` satisfies `k < P − 1` inserts exactly
`P − 1 − k` empty-string placeholders before its rendered value, and the
running count afterwards is `(P − 1) + 1`; a cell without an explicit
index is appended at the current running count, advancing it by 1. -/
theorem c2_sparse_index_expansion :
    (∀ (row_data : List CellValue) (k : Nat) (c : Cell) (s : String) (P : Int),
      c.indexAttr = some s → s ≠ "" → pyInt s = some P → (k : Int) < P - 1 →
      stepCell (row_data, k) c =
        Except.ok
          (row_data ++ List.replicate (P - 1 - (k : Int)).toNat (CellValue.str "")
            ++ [renderValue c],
           (P - 1).toNat + 1)) ∧
    (∀ (row_data : List CellValue) (k : Nat) (c : Cell),
      c.indexAttr = none →
      stepCell (row_data, k) c =
        Except.ok (row_data ++ [renderValue c], k + 1)) := by
  constructor
  · intro row k c s P h1 h2 h3 h4
    rw [stepCell_some row k c s P h1 h2 h3]
    have hk : k + (P - 1 - (k : Int)).toNat = (P - 1).toNat := by omega
    rw [hk]
  · intro row k c h
    exact stepCell_none row k c h

/-- C2 witness: `Index="4"` after one value at running count 1 inserts
two placeholders; an indexless cell appends directly. -/
theorem c2_witness :
    (wCellIdx4 "b").indexAttr = some "4" ∧ ("4" : String) ≠ "" ∧
    pyInt "4" = some 4 ∧ (((1 : Nat) : Int) < 4 - 1) ∧
    stepCell ([CellValue.str "x"], 1) (wCellIdx4 "b") =
      Except.ok
        ([CellValue.str "x"] ++
            List.replicate ((4 - 1 - ((1 : Nat) : Int)).toNat) (CellValue.str "")
          ++ [renderValue (wCellIdx4 "b")],
         ((4 : Int) - 1).toNat + 1) :=
  ⟨rfl, by decide, by decide, by decide,
    c2_sparse_index_expansion.1 [CellValue.str "x"] 1 (wCellIdx4 "b") "4" 4
      rfl (by decide) (by decide) (by decide)⟩

/-- C3: a `Number` cell whose text is empty or fails to parse as a float
coerces to exactly `0.0`, and a `Number` cell always coerces to some
float (the conversion never raises). -/
theorem c3_number_coercion :
    (∀ c : Cell, cellType c = "Number" →
      cellText c = "" ∨ pyFloat (cellText c) = none →
      renderValue c = CellValue.num (PyFloatVal.finite 0)) ∧
    (∀ c : Cell, cellType c = "Number" →
      ∃ v, renderValue c = CellValue.num v) := by
  constructor
  · intro c h hfail
    rw [renderValue_number c h]
    rcases hfail with he | hn
    · rw [if_pos he]
    · by_cases he : cellText c = ""
      · rw [if_pos he]
      · rw [if_neg he, hn]
        rfl
  · intro c h
    rw [renderValue_number c h]
    exact ⟨_, rfl⟩

/-- C3 witness: a `Number` cell with text `"abc"` coerces to `0.0`. -/
theorem c3_witness :
    cellType wCellNum = "Number" ∧ pyFloat (cellText wCellNum) = none ∧
    renderValue wCellNum = CellValue.num (PyFloatVal.finite 0) :=
  ⟨rfl, by decide,
    c3_number_coercion.1 wCellNum rfl (Or.inr (by decide))⟩

/-- C4 counterexample: the text `2024-01-05T00:00:00.500` does not carry
the midnight suffix `T00:00:00` as a suffix, yet the `DateTime` cell is
not passed through unchanged — it is truncated to `2024-01-05`. -/
theorem c4_counterexample :
    cellType wCellDT4 = "DateTime" ∧
    cellText wCellDT4 = "2024-01-05T00:00:00.500" ∧
    strEndsWith "2024-01-05T00:00:00.500" "T00:00:00" = false ∧
    renderValue wCellDT4 ≠ CellValue.str "2024-01-05T00:00:00.500" ∧
    renderValue wCellDT4 = CellValue.str "2024-01-05" :=
  ⟨rfl, rfl, by decide, by decide, by decide⟩

/-- C4 (amended): a `DateTime` cell whose text contains `T00:00:00`
anywhere is truncated to the part before the first `'T'`; a `DateTime`
cell whose text does not contain `T00:00:00` passes through unchanged;
in particular `2024-01-05T00:00:00` yields `2024-01-05` and
`2024-01-05T08:30:00` is unchanged. -/
theorem c4_datetime_amended :
    (∀ c : Cell, cellType c = "DateTime" →
      strContains (cellText c) "T00:00:00" = true →
      renderValue c = CellValue.str (beforeFirstT (cellText c))) ∧
    (∀ c : Cell, cellType c = "DateTime" →
      strContains (cellText c) "T00:00:00" = false →
      renderValue c = CellValue.str (cellText c)) ∧
    renderValue wCellDT1 = CellValue.str "2024-01-05" ∧
    renderValue wCellDT2 = CellValue.str "2024-01-05T08:30:00" := by
  refine ⟨?_, ?_, by decide, by decide⟩
  · intro c h hcont
    have hne : cellText c ≠ "" := strContains_T_ne_empty _ hcont
    rw [renderValue_dateTime c h]
    simp [hne, hcont]
  · intro c h hcont
    rw [renderValue_dateTime c h]
    simp [hcont]

/-- C4 witness: the amended truncation rule at the midnight example. -/
theorem c4_witness :
    cellType wCellDT1 = "DateTime" ∧
    strContains (cellText wCellDT1) "T00:00:00" = true ∧
    renderValue wCellDT1 = CellValue.str (beforeFirstT (cellText wCellDT1)) :=
  ⟨rfl, by decide, c4_datetime_amended.1 wCellDT1 rfl (by decide)⟩

/-- C5: a built row is kept exactly when some value is truthy — the fold
keeps the truthy-containing rows in order and computes `max_cols` over
those only — and a row whose values are all empty strings is excluded. -/
theorem c5_empty_row_filter :
    ∀ (t : XTable) (bs : List (List CellValue)),
      buildRows t = Except.ok bs →
      processTable t =
        Except.ok
          (bs.filter (fun r => r.any truthy),
           (bs.filter (fun r => r.any truthy)).foldl
             (fun a r => max a r.length) 0) ∧
      ∀ r ∈ bs, (∀ v ∈ r, v = CellValue.str "") →
        r ∉ bs.filter (fun r => r.any truthy) := by
  intro t bs h
  constructor
  · have := processTableAux_closed t bs [] 0 h
    simpa [processTable] using this
  · intro r _ hall hmem
    rw [List.mem_filter] at hmem
    have hfalse : r.any truthy = false := by
      rw [List.any_eq_false]
      intro v hv
      rw [hall v hv]
      simp [truthy]
    rw [hfalse] at hmem
    exact absurd hmem.2 (by simp)

/-- C5 witness: the filter and width on `wTable`, whose third row is
all-blank. -/
theorem c5_witness :
    buildRows wTable =
      Except.ok
        [[CellValue.str "", CellValue.str "City"],
         [CellValue.str "a", CellValue.str "b"],
         [CellValue.str "", CellValue.str ""]] ∧
    processTable wTable =
      Except.ok
        ([[CellValue.str "", CellValue.str "City"],
          [CellValue.str "a", CellValue.str "b"],
          [CellValue.str "", CellValue.str ""]].filter (fun r => r.any truthy),
         ([[CellValue.str "", CellValue.str "City"],
           [CellValue.str "a", CellValue.str "b"],
           [CellValue.str "", CellValue.str ""]].filter (fun r => r.any truthy)).foldl
           (fun a r => max a r.length) 0) :=
  ⟨by decide,
    (c5_empty_row_filter wTable
      [[CellValue.str "", CellValue.str "City"],
       [CellValue.str "a", CellValue.str "b"],
       [CellValue.str "", CellValue.str ""]] (by decide)).1⟩

/-- C6: a sheet is produced from a table iff its normalized grid has at
least 2 kept rows; a worksheet whose table yields no sheet is silently
dropped; and a run whose worksheet mapping ends empty writes no sheet,
prints `No data found ...` and returns `False`. -/
theorem c6_min_rows_and_no_data :
    (∀ (t : XTable) (rows : List (List CellValue)) (m : Nat),
      processTable t = Except.ok (rows, m) →
      ((∃ sh, buildSheet t = Except.ok (some sh)) ↔ 2 ≤ rows.length)) ∧
    (∀ (acc : List (String × Sheet)) (ws : Worksheet) (t : XTable),
      ws.table = some t → buildSheet t = Except.ok none →
      convertStep acc ws = Except.ok acc) ∧
    (∀ (wb : List Worksheet) (xml_file xlsx_file : String),
      convert wb = Except.ok [] →
      parse_excel_xml wb xml_file xlsx_file =
        { result := false
          message := "No data found in " ++ xml_file
          sheets := [] }) := by
  refine ⟨?_, ?_, ?_⟩
  · intro t rows m hpt
    unfold buildSheet
    rw [hpt]
    match rows with
    | [] => simp
    | [r0] => simp
    | r0 :: r1 :: rest => simp
  · intro acc ws t hws hb
    simp [convertStep, hws, hb]
  · intro wb x y h
    unfold parse_excel_xml
    rw [h]
    rfl

/-- C6 witness: a one-row worksheet yields no sheet and the run reports
no data. -/
theorem c6_witness :
    processTable [[wCellStr "only"]] =
      Except.ok ([[CellValue.str "only"]], 1) ∧
    ¬(2 ≤ ([[CellValue.str "only"]] : List (List CellValue)).length) ∧
    ¬(∃ sh, buildSheet [[wCellStr "only"]] = Except.ok (some sh)) ∧
    convert wWorkbookShort = Except.ok [] ∧
    parse_excel_xml wWorkbookShort "in.xml" "out.xlsx" =
      { result := false
        message := "No data found in " ++ "in.xml"
        sheets := [] } :=
  ⟨by decide, by decide,
    fun hex =>
      absurd ((c6_min_rows_and_no_data.1 [[wCellStr "only"]]
        [[CellValue.str "only"]] 1 (by decide)).mp hex) (by decide),
    by decide,
    c6_min_rows_and_no_data.2.2 wWorkbookShort "in.xml" "out.xlsx" (by decide)⟩

/-- C7: for a produced sheet, each header entry is the stringified value
of the padded first kept row when that value is truthy, and the
placeholder `Column` with the 1-based position otherwise. -/
theorem c7_header_generation :
    ∀ (t : XTable) (r0 : List CellValue) (rest : List (List CellValue))
      (m : Nat) (sh : Sheet),
      processTable t = Except.ok (r0 :: rest, m) →
      buildSheet t = Except.ok (some sh) →
      sh.headers =
        (padRow m r0).enum.map
          (fun p => if truthy p.2 then pyStr p.2
                    else "Column" ++ toString (p.1 + 1)) := by
  intro t r0 rest m sh hpt hb
  obtain ⟨r0', r1', rest', heq, hsh⟩ := buildSheet_shape t (r0 :: rest) m sh hpt hb
  injection heq with h1 h2
  subst h1
  subst hsh
  rfl

/-- C7 witness: first row `["", "City"]` yields header
`["Column1", "City"]`. -/
theorem c7_witness :
    processTable wTable =
      Except.ok ([[CellValue.str "", CellValue.str "City"],
                  [CellValue.str "a", CellValue.str "b"]], 2) ∧
    buildSheet wTable =
      Except.ok (some
        { headers := ["Column1", "City"]
          data := [[CellValue.str "a", CellValue.str "b"]] }) ∧
    (["Column1", "City"] : List String) =
      (padRow 2 [CellValue.str "", CellValue.str "City"]).enum.map
        (fun p => if truthy p.2 then pyStr p.2
                  else "Column" ++ toString (p.1 + 1)) :=
  ⟨by decide, by decide,
    c7_header_generation wTable [CellValue.str "", CellValue.str "City"]
      [[CellValue.str "a", CellValue.str "b"]] 2
      { headers := ["Column1", "City"]
        data := [[CellValue.str "a", CellValue.str "b"]] }
      (by decide) (by decide)⟩

/-- C8 counterexample: a cell whose `Index` attribute is `"abc"` makes
the normalizer raise (`int("abc")` raises `ValueError`), so the stage is
not total over all inputs. -/
theorem c8_counterexample :
    processTable [[wCellBadIdx]] =
      Except.error ("invalid literal for int" ++ ": " ++ "abc") := by
  decide

/-- C8 (amended): the normalizer raises no error on any table whose
present, non-empty `Index` attributes all parse as integers — the
`int()` call on a malformed `Index` attribute is the stage's only error
path. -/
theorem c8_normalizer_totality :
    ∀ t : XTable, validIndexes t = true →
      ∃ res, processTable t = Except.ok res := by
  intro t h
  apply processTableAux_ok
  intro r hr c hc
  rw [validIndexes, List.all_eq_true] at h
  have hrow := h r hr
  rw [List.all_eq_true] at hrow
  exact hrow c hc

/-- C8 witness: a table with a parseable `Index` and an indexless cell
normalizes without error. -/
theorem c8_witness :
    validIndexes [[wCellIdx4 "b", wCellStr "x"]] = true ∧
    ∃ res, processTable [[wCellIdx4 "b", wCellStr "x"]] = Except.ok res :=
  ⟨by decide, c8_normalizer_totality [[wCellIdx4 "b", wCellStr "x"]] (by decide)⟩

/-- C9: a cell whose explicit 1-based position `P` satisfies
`P − 1 ≤ k` (at or behind the running count) inserts no placeholder,
removes or overwrites nothing — the row so far stays an unchanged
prefix — and its value is appended with the count advancing by 1. -/
theorem c9_backward_index :
    ∀ (row_data : List CellValue) (k : Nat) (c : Cell) (s : String) (P : Int),
      c.indexAttr = some s → s ≠ "" → pyInt s = some P → P - 1 ≤ (k : Int) →
      stepCell (row_data, k) c =
        Except.ok (row_data ++ [renderValue c], k + 1) := by
  intro row k c s P h1 h2 h3 h4
  rw [stepCell_some row k c s P h1 h2 h3]
  have h0 : (P - 1 - (k : Int)).toNat = 0 := by omega
  rw [h0]
  simp

/-- C9 witness: `Index="1"` behind a running count of 2 appends without
placeholders. -/
theorem c9_witness :
    (⟨some "1", some ⟨none, some "z"⟩⟩ : Cell).indexAttr = some "1" ∧
    pyInt "1" = some 1 ∧ ((1 : Int) - 1 ≤ ((2 : Nat) : Int)) ∧
    stepCell ([CellValue.str "a", CellValue.str "b"], 2)
        ⟨some "1", some ⟨none, some "z"⟩⟩ =
      Except.ok
        ([CellValue.str "a", CellValue.str "b"] ++
          [renderValue ⟨some "1", some ⟨none, some "z"⟩⟩], 2 + 1) :=
  ⟨rfl, by decide, by decide,
    c9_backward_index [CellValue.str "a", CellValue.str "b"] 2
      ⟨some "1", some ⟨none, some "z"⟩⟩ "1" 1 rfl (by decide) (by decide)
      (by decide)⟩

/-- C10: a `DateTime` cell whose text contains `T00:00:00` at any
position is truncated at the first occurrence of the character `'T'`,
keeping only the portion before it. -/
theorem c10_truncate_at_first_T :
    ∀ c : Cell, cellType c = "DateTime" →
      strContains (cellText c) "T00:00:00" = true →
      renderValue c =
        CellValue.str
          (String.mk ((cellText c).toList.takeWhile (fun ch => ch ≠ 'T'))) := by
  intro c h hcont
  have hne : cellText c ≠ "" := strContains_T_ne_empty _ hcont
  rw [renderValue_dateTime c h]
  simp [hne, hcont, beforeFirstT]

/-- C10 witness: `2020-02-02T00:00:00+05:00` contains `T00:00:00` though
not as a suffix, and is truncated at the first `'T'`. -/
theorem c10_witness :
    cellType wCellDT3 = "DateTime" ∧
    strContains (cellText wCellDT3) "T00:00:00" = true ∧
    renderValue wCellDT3 =
      CellValue.str
        (String.mk ((cellText wCellDT3).toList.takeWhile (fun ch => ch ≠ 'T'))) :=
  ⟨rfl, by decide, c10_truncate_at_first_T wCellDT3 rfl (by decide)⟩
